import Mathlib

/-!
Verification development for the Vani voice-agent turn-orchestration layer.

Shallow embedding of:
  * `vani/gateway/stub.py` — `VaniGatewayStub.process_audio`, `_execute_action`,
    history trimming, turn-state transitions, gateway events;
  * `vani/session.py` — `SessionConfig` (the fields the gateway reads);
  * `vani/backends/base.py` — result dataclasses;
  * `demo/live_cli.py` — `MicRecorder.utterance_stream` (utterance segmenter).

Modelling conventions:
  * Python `str` is modelled as `List Char` (a sequence of Unicode code
    points, which is exactly Python's string model; slicing is by code
    points).  Identifier-like strings (roles, language tags, session ids)
    that are never sliced are modelled as Lean `String`.
  * Async generators are modelled as pure functions from their input
    streams to the list of yielded items.  A backend stream is a list of
    items followed by either a clean close or a raised exception
    (`StreamRes`).  An exception raised by a stream mid-iteration is
    observed after all yielded items, which is how an `async for` loop
    observes it.
  * A raised Python exception escaping `process_audio` is modelled by the
    `raised` field of the result (`none` = the generator returned).
  * `json.loads` is external library code; it is modelled by an oracle
    parameter `jsonLoads : Str → Option Args` (`none` = `JSONDecodeError`).
    `json.dumps({"error": msg})` is modelled for messages that need no
    escaping.
  * Audio frames are abstracted to their RMS energy (the source computes
    RMS from int16 PCM bytes via numpy floats); RMS values are rationals.
  * Float-derived integer constants of the demo (`int(1.5*16000/320)` …)
    are evaluated to their numeric values.
-/

namespace Vani

/-- Python strings are sequences of Unicode code points. -/
abbrev Str := List Char

/-- Python slicing `s[a:b]` for `0 ≤ a ≤ b` (clamping at the ends). -/
def pySlice (s : Str) (a b : Nat) : Str := (s.drop a).take (b - a)

/-- Truthiness test `not s.strip()`: true iff every character is whitespace
(so also for the empty string). -/
def pyStripEmpty (s : Str) : Bool := s.all Char.isWhitespace

/-- Python slice `h[-k:]` for a non-negative `k` (note `h[-0:]` is all of `h`). -/
def pyLastSlice {α : Type} (h : List α) (k : Nat) : List α :=
  if k = 0 then h else h.drop (h.length - k)

/-- An apostrophe character, used by the code-switch annotation format. -/
def squote : Char := Char.ofNat 39

-- ── Data model (vani/backends/base.py) ───────────────────────────────────────

/-- Python `CodeSwitchSpan` dataclass. -/
structure CodeSwitchSpan where
  start_char : Nat
  end_char : Nat
  language_bcp47 : String
  confidence : ℚ := 0
deriving DecidableEq

/-- Python `TranscriptResult` dataclass. -/
structure TranscriptResult where
  text : Str
  is_final : Bool
  language_bcp47 : String
  utterance_id : String := ""
  text_roman : Str := []
  detected_script : String := ""
  confidence : ℚ := 0
  code_switch_spans : List CodeSwitchSpan := []
  dialect_tag : String := ""
  start_offset_ms : Int := 0
  end_offset_ms : Int := 0
deriving DecidableEq

/-- Python `SynthesisResult` dataclass (`audio_bytes` as a byte list). -/
structure SynthesisResult where
  audio_bytes : List Nat
  codec : String
  is_final : Bool := false
  duration_ms : Int := 0
  chunk_index : Int := 0
deriving DecidableEq

/-- A parsed tool-argument dict (string keys to string-ish values). -/
abbrev Args := List (String × Str)

/-- The raw `arguments` payload of a tool call is either a JSON string or
an already-parsed dict (the code checks `isinstance(args_raw, str)`). -/
inductive ArgsVal where
  | strVal (s : Str)
  | dictVal (d : Args)
deriving DecidableEq

/-- Model of the tool-call dict carried by an LLM delta: the keys
`_execute_action` reads.  `Option` marks a missing key; `id` defaults to
`""` exactly as `tool_call.get("id", "")` does. -/
structure ToolCall where
  function_name : Option Str := none
  name : Option Str := none
  function_arguments : Option ArgsVal := none
  arguments : Option ArgsVal := none
  input : Option ArgsVal := none
  id : String := ""
deriving DecidableEq

/-- Python `LLMResult` dataclass. -/
structure LLMResult where
  text_delta : Str
  is_final : Bool := false
  tool_call : Option ToolCall := none
  finish_reason : String := ""
deriving DecidableEq

-- ── Session configuration (vani/session.py) ──────────────────────────────────

/-- Python `LanguageHint` dataclass. -/
structure LanguageHint where
  bcp47_code : String
  confidence : ℚ := 0
deriving DecidableEq

/-- Python `SessionConfig` dataclass, restricted to the fields the gateway
pipeline reads (`language_hints` — whose dataclass default is the empty
list — and `session_id`; the capability flags and audio profile are only
forwarded verbatim to the backends and do not influence control flow). -/
structure SessionConfig where
  language_hints : List LanguageHint := []
  session_id : String := ""

-- ── Gateway event model (vani/gateway/stub.py) ───────────────────────────────

/-- Python `TurnState` enum. -/
inductive TurnState where
  | IDLE | LISTENING | THINKING | SPEAKING | INTERRUPTED | END_OF_TURN | ERROR
deriving DecidableEq

/-- Python `TurnSignal` dataclass. -/
structure TurnSignal where
  event : TurnState
  turn_id : String
  session_id : String
  elapsed_ms : Int := 0
deriving DecidableEq

/-- Python `GatewayEvent` dataclass: optional fields all defaulting to
`None`; the pipeline populates exactly one per emission. -/
structure GatewayEvent where
  transcript : Option TranscriptResult := none
  turn_signal : Option TurnSignal := none
  synthesis_chunk : Option SynthesisResult := none
  llm_text : Option Str := none
  error : Option Str := none
deriving DecidableEq

/-- Outcome of the action callback: a returned string or a raised
exception carrying `str(exc)`. -/
inductive ExecResult where
  | ok (s : Str)
  | raised (msg : Str)

/-- Model of the `ActionCallback` type alias (tool name + args → result). -/
abbrev ActionCallback := Str → Args → ExecResult

/-- Python `Msg`: one entry of `self._history`; `tool_call_id` is present
only on tool entries. -/
structure Msg where
  role : String
  content : Str
  tool_call_id : Option String := none
deriving DecidableEq

/-- Mutable state of a `VaniGatewayStub` instance (the backends are passed
to `process_audio` explicitly in this model). -/
structure VaniGatewayStub where
  config : SessionConfig
  system_prompt : Str
  action_callback : Option ActionCallback := none
  max_history_turns : Nat := 10
  state : TurnState
  turn_id : String
  history : List Msg

/-- `VaniGatewayStub.__init__`: initial state `IDLE`, history holding the
single system entry; `turn_id` is the generated uuid. -/
def mkGateway (config : SessionConfig) (system_prompt : Str)
    (action_callback : Option ActionCallback) (max_history_turns : Nat)
    (turn_id : String) : VaniGatewayStub :=
  { config := config, system_prompt := system_prompt,
    action_callback := action_callback, max_history_turns := max_history_turns,
    state := TurnState.IDLE, turn_id := turn_id,
    history := [{ role := "system", content := system_prompt }] }

/-- The `TurnSignal` built by `_transition` (elapsed_ms is left 0). -/
def mkSignal (g : VaniGatewayStub) (s : TurnState) : TurnSignal :=
  { event := s, turn_id := g.turn_id, session_id := g.config.session_id }

/-- The state mutation performed by `_transition`. -/
def setState (g : VaniGatewayStub) (s : TurnState) : VaniGatewayStub :=
  { g with state := s }

/-- `_transition`: record the new state and return its signal. -/
def transition (g : VaniGatewayStub) (s : TurnState) :
    TurnSignal × VaniGatewayStub :=
  (mkSignal g s, setState g s)

/-- Event wrapper `GatewayEvent(turn_signal=...)`. -/
def mkSignalEvent (s : TurnSignal) : GatewayEvent := { turn_signal := some s }

/-- Event wrapper `GatewayEvent(transcript=...)`. -/
def mkTranscriptEvent (t : TranscriptResult) : GatewayEvent :=
  { transcript := some t }

/-- Event wrapper `GatewayEvent(synthesis_chunk=...)`. -/
def mkChunkEvent (c : SynthesisResult) : GatewayEvent :=
  { synthesis_chunk := some c }

/-- Event wrapper `GatewayEvent(llm_text=...)`. -/
def mkLlmTextEvent (t : Str) : GatewayEvent := { llm_text := some t }

-- ── _execute_action (stub.py lines 242-268) ──────────────────────────────────

/-- Python truthiness of an `args_raw` candidate (`None`, `""` and `{}`
are falsy). -/
def pyTruthyArgs (v : ArgsVal) : Bool :=
  match v with
  | ArgsVal.strVal s => !s.isEmpty
  | ArgsVal.dictVal d => !d.isEmpty

/-- One step of the Python `or` chain over optional dict lookups. -/
def pyOr (v : Option ArgsVal) (next : ArgsVal) : ArgsVal :=
  match v with
  | some x => if pyTruthyArgs x then x else next
  | none => next

/-- `tool_call.get("function", {}).get("name") or tool_call.get("name", "unknown_tool")`. -/
def toolNameOf (tc : ToolCall) : Str :=
  match tc.function_name with
  | some s => if s.isEmpty then tc.name.getD ("unknown_tool".data) else s
  | none => tc.name.getD ("unknown_tool".data)

/-- `tool_call.get("function", {}).get("arguments") or tool_call.get("arguments")
or tool_call.get("input") or "{}"`. -/
def argsRawOf (tc : ToolCall) : ArgsVal :=
  pyOr tc.function_arguments (pyOr tc.arguments (pyOr tc.input
    (ArgsVal.strVal ("\x7b\x7d".data))))

/-- `json.loads(args_raw) if isinstance(args_raw, str) else args_raw`, with
`JSONDecodeError` mapped to the empty argument dict. -/
def argsOf (jsonLoads : Str → Option Args) (tc : ToolCall) : Args :=
  match argsRawOf tc with
  | ArgsVal.strVal s => (jsonLoads s).getD []
  | ArgsVal.dictVal d => d

/-- `json.dumps({"error": str(exc)})` for messages needing no escaping. -/
def jsonDumpsError (msg : Str) : Str :=
  ("\x7b\"error\": \"").data ++ msg ++ ("\"\x7d").data

/-- The string returned when no action callback is registered. -/
def noCallbackResult : Str :=
  ("\x7b\"error\": \"No action callback registered\"\x7d").data

/-- `VaniGatewayStub._execute_action`: dispatch a tool call to the action
callback, catching a raised exception into a JSON error payload. -/
def execute_action (cb : Option ActionCallback) (jsonLoads : Str → Option Args)
    (tc : ToolCall) : Str :=
  match cb with
  | none => noCallbackResult
  | some f =>
    match f (toolNameOf tc) (argsOf jsonLoads tc) with
    | ExecResult.ok s => s
    | ExecResult.raised m => jsonDumpsError m

-- ── process_audio (stub.py lines 137-240) ────────────────────────────────────

/-- A backend stream observed by an `async for` loop: the yielded items,
then either a clean close (`exn = none`) or a raised exception. -/
structure StreamRes (α : Type) where
  items : List α
  exn : Option Str := none

/-- An exception escaping `process_audio` uncaught. -/
inductive PyExn where
  | pyError (msg : Str)
  | indexError
deriving DecidableEq

/-- Result of one `process_audio` call: the yielded events, whether an
exception escaped, and the gateway state afterwards. -/
structure PAResult where
  events : List GatewayEvent
  raised : Option PyExn
  g : VaniGatewayStub

/-- Message-construction block (stub.py lines 177-186): the transcript
text, plus a transliteration annotation when `text_roman` is non-empty,
plus a code-switch annotation whose quoted substrings slice the
`user_content` value as it stands after the transliteration append. -/
def switchInfo (uc : Str) (spans : List CodeSwitchSpan) : Str :=
  List.intercalate (", ".data) (spans.map fun s =>
    squote :: pySlice uc s.start_char s.end_char
      ++ (squote :: " (".data) ++ s.language_bcp47.data ++ ")".data)

/-- The enriched user message content built from the final transcript. -/
def buildUserContent (ft : TranscriptResult) : Str :=
  let uc := ft.text
  let uc := if ft.text_roman.isEmpty then uc
            else uc ++ ("\n[Transliteration: ").data ++ ft.text_roman ++ ("]").data
  if ft.code_switch_spans.isEmpty then uc
  else uc ++ ("\n[Code-switch: ").data ++ switchInfo uc ft.code_switch_spans
       ++ ("]").data

/-- The user history entry appended for a final transcript. -/
def userMsg (ft : TranscriptResult) : Msg :=
  { role := "user", content := buildUserContent ft }

/-- History trim (stub.py lines 191-192): when the length exceeds
`max_history_turns * 2 + 1`, keep `[history[0]] + history[-(max*2):]`. -/
def trimHistory (m : Nat) (h : List Msg) : List Msg :=
  if h.length > m * 2 + 1 then h.take 1 ++ pyLastSlice h (m * 2) else h

/-- The trimmed history right after the user append, given the gateway
state at the start of the turn. -/
def historyAfterUser (g : VaniGatewayStub) (ft : TranscriptResult) : List Msg :=
  trimHistory g.max_history_turns (g.history ++ [userMsg ft])

/-- Response-language selection (stub.py line 195):
`final_transcript.language_bcp47 or language_hints[0]`; `none` models the
`IndexError` raised by `language_hints[0]` on an empty hint list. -/
def respLang (ft : TranscriptResult) (hints : List String) : Option String :=
  if ft.language_bcp47 ≠ "" then some ft.language_bcp47 else hints.head?

/-- The LLM consumption loop (stub.py lines 198-213): tool-call deltas are
dispatched and their results appended to history; non-empty text deltas
are accumulated.  Returns the history and accumulated reply. -/
def llmLoop (cb : Option ActionCallback) (jsonLoads : Str → Option Args) :
    List LLMResult → List Msg → Str → List Msg × Str
  | [], h, acc => (h, acc)
  | d :: rest, h, acc =>
    match d.tool_call, cb with
    | some tc, some _ =>
      let tool_result := execute_action cb jsonLoads tc
      llmLoop cb jsonLoads rest
        (h ++ [{ role := "tool", content := tool_result,
                 tool_call_id := some tc.id }]) acc
    | _, _ =>
      if d.text_delta.isEmpty then llmLoop cb jsonLoads rest h acc
      else llmLoop cb jsonLoads rest h (acc ++ d.text_delta)

/-- `VaniGatewayStub.process_audio`: one full STT → LLM → TTS turn.

The STT stream for this utterance, the LLM stream (as a function of the
history passed to `chat_stream`) and the TTS stream (as a function of the
synthesized text) are the backend inputs; `freshId` is the uuid generated
for the next turn at line 236. -/
def process_audio (g0 : VaniGatewayStub)
    (stt : StreamRes TranscriptResult)
    (llm : List Msg → StreamRes LLMResult)
    (tts : Str → StreamRes SynthesisResult)
    (jsonLoads : Str → Option Args)
    (freshId : String) : PAResult :=
  let language_hints := g0.config.language_hints.map (·.bcp47_code)
  -- LISTENING
  let g1 := setState g0 TurnState.LISTENING
  let evs0 := mkSignalEvent (mkSignal g0 TurnState.LISTENING)
              :: stt.items.map mkTranscriptEvent
  let final? := (stt.items.filter (·.is_final)).getLast?
  match stt.exn with
  | some m => { events := evs0, raised := some (PyExn.pyError m), g := g1 }
  | none =>
    match final? with
    | none =>
      { events := evs0 ++ [mkSignalEvent (mkSignal g1 TurnState.IDLE)],
        raised := none, g := setState g1 TurnState.IDLE }
    | some ft =>
      if pyStripEmpty ft.text then
        { events := evs0 ++ [mkSignalEvent (mkSignal g1 TurnState.IDLE)],
          raised := none, g := setState g1 TurnState.IDLE }
      else
        -- THINKING
        let g2 := setState g1 TurnState.THINKING
        let evs1 := evs0 ++ [mkSignalEvent (mkSignal g1 TurnState.THINKING)]
        let h2 := trimHistory g2.max_history_turns (g2.history ++ [userMsg ft])
        let g3 := { g2 with history := h2 }
        match respLang ft language_hints with
        | none => { events := evs1, raised := some PyExn.indexError, g := g3 }
        | some _lang =>
          let L := llm h2
          let hf := llmLoop g3.action_callback jsonLoads L.items h2 []
          let g4 := { g3 with history := hf.1 }
          match L.exn with
          | some m => { events := evs1, raised := some (PyExn.pyError m), g := g4 }
          | none =>
            if pyStripEmpty hf.2 then
              { events := evs1 ++ [mkSignalEvent (mkSignal g4 TurnState.IDLE)],
                raised := none, g := setState g4 TurnState.IDLE }
            else
              let g5 := { g4 with
                          history := hf.1 ++ [{ role := "assistant", content := hf.2 }] }
              let evs2 := evs1 ++ [mkLlmTextEvent hf.2]
              -- SPEAKING
              let g6 := setState g5 TurnState.SPEAKING
              let T := tts hf.2
              let evs3 := evs2 ++ [mkSignalEvent (mkSignal g5 TurnState.SPEAKING)]
                          ++ T.items.map mkChunkEvent
              match T.exn with
              | some m => { events := evs3, raised := some (PyExn.pyError m), g := g6 }
              | none =>
                -- END_OF_TURN with the regenerated turn id, then the
                -- un-yielded transition back to IDLE
                let g7 := { g6 with turn_id := freshId }
                let g8 := setState g7 TurnState.END_OF_TURN
                { events := evs3 ++ [mkSignalEvent (mkSignal g7 TurnState.END_OF_TURN)],
                  raised := none, g := setState g8 TurnState.IDLE }

/-- `VaniGatewayStub.reset`. -/
def reset (g : VaniGatewayStub) (turn_id : String) : VaniGatewayStub :=
  { g with history := [{ role := "system", content := g.system_prompt }],
           state := TurnState.IDLE, turn_id := turn_id }

-- ── Utterance segmenter (demo/live_cli.py, MicRecorder.utterance_stream) ─────

/-- An audio chunk, abstracted to its RMS energy. -/
structure Frame where
  rms : ℚ
deriving DecidableEq

/-- Constant `SILENCE_THRESHOLD = 500`. -/
def SILENCE_THRESHOLD : ℚ := 500

/-- Derived constant `silence_chunks = int(1.5 * 16000 / 320)`. -/
def silence_chunks : Nat := 75

/-- Derived constant `min_speech_chunks = int(1.0 * 16000 / 320)`. -/
def min_speech_chunks : Nat := 50

/-- Derived constant `pre_max = max(1, int(0.3 * 16000 / 320))`. -/
def pre_max : Nat := 15

/-- Derived constant `max_wait = int(15.0 * 16000 / 320)`. -/
def max_wait : Nat := 750

/-- The pre-roll ring-buffer update: append, then pop the oldest element
when the capacity is exceeded. -/
def ringPush (preMax : Nat) (pre : List Frame) (f : Frame) : List Frame :=
  if (pre ++ [f]).length > preMax then (pre ++ [f]).drop 1 else pre ++ [f]

/-- Phase 1 of `utterance_stream` (wait for speech onset).  The input is
the chunk queue: `none` is the stop sentinel; queue exhaustion also ends
the model's input.  Returns the pre-roll buffer to flush plus the
remaining input on onset, or `none` when no speech was detected. -/
def phase1 (thr : ℚ) (preMax maxWait : Nat) :
    List (Option Frame) → Nat → List Frame →
    Option (List Frame × List (Option Frame))
  | [], _, _ => none
  | none :: _, _, _ => none
  | some f :: rest, waited, pre =>
    let waited' := waited + 1
    let pre' := ringPush preMax pre f
    if thr < f.rms then some (pre', rest)
    else if maxWait ≤ waited' then none
    else phase1 thr preMax maxWait rest waited' pre'

/-- Phase 2 of `utterance_stream` (stream until trailing silence).
`streamed` starts at `len(pre_buffer)` — which is 0, the buffer having
just been cleared — and `silent_count` at 0. -/
def phase2 (thr : ℚ) (minSpeech silenceChunks : Nat) :
    List (Option Frame) → Nat → Nat → List Frame
  | [], _, _ => []
  | none :: _, _, _ => []
  | some f :: rest, streamed, silent =>
    let streamed' := streamed + 1
    if thr < f.rms then f :: phase2 thr minSpeech silenceChunks rest streamed' 0
    else if minSpeech ≤ streamed' then
      let silent' := silent + 1
      if silenceChunks ≤ silent' then [f]
      else f :: phase2 thr minSpeech silenceChunks rest streamed' silent'
    else f :: phase2 thr minSpeech silenceChunks rest streamed' silent

/-- `MicRecorder.utterance_stream`, parametrized by the tunables. -/
def utterance_stream (thr : ℚ) (preMax maxWait minSpeech silenceChunks : Nat)
    (input : List (Option Frame)) : List Frame :=
  match phase1 thr preMax maxWait input 0 [] with
  | none => []
  | some pr => pr.1 ++ phase2 thr minSpeech silenceChunks pr.2 0 0

-- ── Derived views used by theorem statements ─────────────────────────────────

/-- Events yielded while LISTENING: the signal plus forwarded transcripts. -/
def listeningEvents (g : VaniGatewayStub) (stt : StreamRes TranscriptResult) :
    List GatewayEvent :=
  mkSignalEvent (mkSignal g TurnState.LISTENING) :: stt.items.map mkTranscriptEvent

/-- History and accumulated reply after the LLM consumption loop of a turn
whose final transcript is `ft`. -/
def llmOut (g : VaniGatewayStub) (jsonLoads : Str → Option Args)
    (llm : List Msg → StreamRes LLMResult) (ft : TranscriptResult) :
    List Msg × Str :=
  llmLoop g.action_callback jsonLoads (llm (historyAfterUser g ft)).items
    (historyAfterUser g ft) []

@[simp] lemma mkSignalEvent_error (s : TurnSignal) :
    (mkSignalEvent s).error = none := rfl

@[simp] lemma mkTranscriptEvent_error (t : TranscriptResult) :
    (mkTranscriptEvent t).error = none := rfl

@[simp] lemma mkChunkEvent_error (c : SynthesisResult) :
    (mkChunkEvent c).error = none := rfl

@[simp] lemma mkLlmTextEvent_error (t : Str) :
    (mkLlmTextEvent t).error = none := rfl

-- ── Branch-reduction lemmas for process_audio ────────────────────────────────

lemma process_audio_sttExn (g : VaniGatewayStub) (stt llm tts jl fid) (m : Str)
    (hm : stt.exn = some m) :
    process_audio g stt llm tts jl fid =
      { events := listeningEvents g stt,
        raised := some (PyExn.pyError m),
        g := setState g TurnState.LISTENING } := by
  unfold process_audio
  rw [hm]
  rfl

lemma process_audio_noFinal (g : VaniGatewayStub) (stt llm tts jl fid)
    (hexn : stt.exn = none)
    (hft : (stt.items.filter (·.is_final)).getLast? = none) :
    process_audio g stt llm tts jl fid =
      { events := listeningEvents g stt ++ [mkSignalEvent (mkSignal g TurnState.IDLE)],
        raised := none,
        g := setState g TurnState.IDLE } := by
  unfold process_audio
  rw [hexn, hft]
  rfl

lemma process_audio_wsFinal (g : VaniGatewayStub) (stt llm tts jl fid)
    (ft : TranscriptResult)
    (hexn : stt.exn = none)
    (hft : (stt.items.filter (·.is_final)).getLast? = some ft)
    (htext : pyStripEmpty ft.text = true) :
    process_audio g stt llm tts jl fid =
      { events := listeningEvents g stt ++ [mkSignalEvent (mkSignal g TurnState.IDLE)],
        raised := none,
        g := setState g TurnState.IDLE } := by
  unfold process_audio
  rw [hexn, hft]
  dsimp only
  rw [htext]
  rfl

lemma process_audio_indexError (g : VaniGatewayStub) (stt llm tts jl fid)
    (ft : TranscriptResult)
    (hexn : stt.exn = none)
    (hft : (stt.items.filter (·.is_final)).getLast? = some ft)
    (htext : pyStripEmpty ft.text = false)
    (hlang : respLang ft (g.config.language_hints.map (·.bcp47_code)) = none) :
    process_audio g stt llm tts jl fid =
      { events := listeningEvents g stt ++ [mkSignalEvent (mkSignal g TurnState.THINKING)],
        raised := some PyExn.indexError,
        g := { g with
                 state := TurnState.THINKING,
                 history := historyAfterUser g ft } } := by
  unfold process_audio
  rw [hexn, hft]
  dsimp only
  rw [htext]
  dsimp only [historyAfterUser, setState] at hlang ⊢
  rw [hlang]
  rfl

lemma process_audio_llmExn (g : VaniGatewayStub) (stt llm tts jl fid)
    (ft : TranscriptResult) (lang : String) (m : Str)
    (hexn : stt.exn = none)
    (hft : (stt.items.filter (·.is_final)).getLast? = some ft)
    (htext : pyStripEmpty ft.text = false)
    (hlang : respLang ft (g.config.language_hints.map (·.bcp47_code)) = some lang)
    (hL : (llm (historyAfterUser g ft)).exn = some m) :
    process_audio g stt llm tts jl fid =
      { events := listeningEvents g stt ++ [mkSignalEvent (mkSignal g TurnState.THINKING)],
        raised := some (PyExn.pyError m),
        g := { g with
                 state := TurnState.THINKING,
                 history := (llmOut g jl llm ft).1 } } := by
  unfold process_audio
  rw [hexn, hft]
  dsimp only
  rw [htext]
  dsimp only [historyAfterUser, llmOut, setState] at hlang hL ⊢
  rw [hlang]
  dsimp only
  rw [hL]
  rfl

lemma process_audio_emptyReply (g : VaniGatewayStub) (stt llm tts jl fid)
    (ft : TranscriptResult) (lang : String)
    (hexn : stt.exn = none)
    (hft : (stt.items.filter (·.is_final)).getLast? = some ft)
    (htext : pyStripEmpty ft.text = false)
    (hlang : respLang ft (g.config.language_hints.map (·.bcp47_code)) = some lang)
    (hL : (llm (historyAfterUser g ft)).exn = none)
    (hfull : pyStripEmpty (llmOut g jl llm ft).2 = true) :
    process_audio g stt llm tts jl fid =
      { events := listeningEvents g stt ++ [mkSignalEvent (mkSignal g TurnState.THINKING),
                   mkSignalEvent (mkSignal g TurnState.IDLE)],
        raised := none,
        g := { g with
                 state := TurnState.IDLE,
                 history := (llmOut g jl llm ft).1 } } := by
  unfold process_audio
  rw [hexn, hft]
  dsimp only
  rw [htext]
  dsimp only [historyAfterUser, llmOut, setState] at hlang hL hfull ⊢
  rw [hlang]
  dsimp only
  rw [hL]
  dsimp only
  rw [hfull]
  simp [listeningEvents, mkSignal, List.append_assoc]

lemma process_audio_success (g : VaniGatewayStub) (stt llm tts jl fid)
    (ft : TranscriptResult) (lang : String)
    (hexn : stt.exn = none)
    (hft : (stt.items.filter (·.is_final)).getLast? = some ft)
    (htext : pyStripEmpty ft.text = false)
    (hlang : respLang ft (g.config.language_hints.map (·.bcp47_code)) = some lang)
    (hL : (llm (historyAfterUser g ft)).exn = none)
    (hfull : pyStripEmpty (llmOut g jl llm ft).2 = false)
    (hT : (tts (llmOut g jl llm ft).2).exn = none) :
    process_audio g stt llm tts jl fid =
      { events := listeningEvents g stt
          ++ [mkSignalEvent (mkSignal g TurnState.THINKING),
              mkLlmTextEvent (llmOut g jl llm ft).2,
              mkSignalEvent (mkSignal g TurnState.SPEAKING)]
          ++ (tts (llmOut g jl llm ft).2).items.map mkChunkEvent
          ++ [mkSignalEvent { event := TurnState.END_OF_TURN, turn_id := fid,
                              session_id := g.config.session_id }],
        raised := none,
        g := { g with
                 state := TurnState.IDLE,
                 turn_id := fid,
                 history := (llmOut g jl llm ft).1
                   ++ [{ role := "assistant", content := (llmOut g jl llm ft).2 }] } } := by
  unfold process_audio
  rw [hexn, hft]
  dsimp only
  rw [htext]
  dsimp only [historyAfterUser, llmOut, setState] at hlang hL hfull hT ⊢
  rw [hlang]
  dsimp only
  rw [hL]
  rw [hfull, hT]
  simp [listeningEvents, mkSignal, List.append_assoc]

lemma process_audio_ttsExn (g : VaniGatewayStub) (stt llm tts jl fid)
    (ft : TranscriptResult) (lang : String) (m : Str)
    (hexn : stt.exn = none)
    (hft : (stt.items.filter (·.is_final)).getLast? = some ft)
    (htext : pyStripEmpty ft.text = false)
    (hlang : respLang ft (g.config.language_hints.map (·.bcp47_code)) = some lang)
    (hL : (llm (historyAfterUser g ft)).exn = none)
    (hfull : pyStripEmpty (llmOut g jl llm ft).2 = false)
    (hT : (tts (llmOut g jl llm ft).2).exn = some m) :
    process_audio g stt llm tts jl fid =
      { events := listeningEvents g stt
          ++ [mkSignalEvent (mkSignal g TurnState.THINKING),
              mkLlmTextEvent (llmOut g jl llm ft).2,
              mkSignalEvent (mkSignal g TurnState.SPEAKING)]
          ++ (tts (llmOut g jl llm ft).2).items.map mkChunkEvent,
        raised := some (PyExn.pyError m),
        g := { g with
                 state := TurnState.SPEAKING,
                 history := (llmOut g jl llm ft).1
                   ++ [{ role := "assistant", content := (llmOut g jl llm ft).2 }] } } := by
  unfold process_audio
  rw [hexn, hft]
  dsimp only
  rw [htext]
  dsimp only [historyAfterUser, llmOut, setState] at hlang hL hfull hT ⊢
  rw [hlang]
  dsimp only
  rw [hL]
  dsimp only
  rw [hfull, hT]
  simp [listeningEvents, mkSignal, List.append_assoc]

/-- Nowhere does the pipeline populate the `error` field of an event. -/
lemma process_audio_error_none (g : VaniGatewayStub) (stt llm tts jl fid) :
    ∀ e ∈ (process_audio g stt llm tts jl fid).events, e.error = none := by
  unfold process_audio
  dsimp only
  repeat' split
  all_goals
    intro e he
    simp only [List.mem_cons, List.mem_append, List.mem_map,
      List.mem_singleton] at he
  all_goals aesop

-- ── llmLoop lemmas ───────────────────────────────────────────────────────────

/-- Concatenation of all text deltas of a stream (empty deltas contribute
nothing, so this is also the accumulation of the non-empty ones). -/
def textConcat (items : List LLMResult) : Str :=
  (items.map (·.text_delta)).flatten

lemma llmLoop_cb_none (jl : Str → Option Args) (items : List LLMResult) :
    ∀ h acc, llmLoop none jl items h acc = (h, acc ++ textConcat items) := by
  induction items with
  | nil => intro h acc; simp [llmLoop, textConcat]
  | cons d rest ih =>
    intro h acc
    cases htc : d.tool_call <;>
      simp only [llmLoop, htc] <;>
      by_cases hd : d.text_delta.isEmpty <;>
      simp only [hd, if_true, if_false, ih, textConcat, List.map_cons,
        List.flatten, List.append_assoc] <;>
      simp_all [List.isEmpty_iff, textConcat]

lemma llmLoop_noTool (cb : Option ActionCallback) (jl : Str → Option Args)
    (items : List LLMResult) (hnt : ∀ d ∈ items, d.tool_call = none) :
    ∀ h acc, llmLoop cb jl items h acc = (h, acc ++ textConcat items) := by
  induction items with
  | nil => intro h acc; simp [llmLoop, textConcat]
  | cons d rest ih =>
    intro h acc
    have htc : d.tool_call = none := hnt d (by simp)
    have ih' := ih (fun d hd => hnt d (by simp [hd]))
    cases cb <;>
      simp only [llmLoop, htc] <;>
      by_cases hd : d.text_delta.isEmpty <;>
      simp only [hd, if_true, if_false, ih', textConcat, List.map_cons,
        List.flatten, List.append_assoc] <;>
      simp_all [List.isEmpty_iff, textConcat]

lemma llmLoop_append (cb : Option ActionCallback) (jl : Str → Option Args)
    (xs ys : List LLMResult) :
    ∀ h acc, llmLoop cb jl (xs ++ ys) h acc =
      llmLoop cb jl ys (llmLoop cb jl xs h acc).1 (llmLoop cb jl xs h acc).2 := by
  induction xs with
  | nil => intro h acc; simp [llmLoop]
  | cons d rest ih =>
    intro h acc
    cases htc : d.tool_call <;> cases cb <;>
      simp only [List.cons_append, llmLoop, htc] <;>
      by_cases hd : d.text_delta.isEmpty <;>
      simp [hd, ih]

lemma llmLoop_hist_extends (cb : Option ActionCallback) (jl : Str → Option Args)
    (items : List LLMResult) :
    ∀ h acc, ∃ s, (llmLoop cb jl items h acc).1 = h ++ s := by
  induction items with
  | nil => intro h acc; exact ⟨[], by simp [llmLoop]⟩
  | cons d rest ih =>
    intro h acc
    rcases htc : d.tool_call with _ | tc
    · rcases cb with _ | f <;>
        simp only [llmLoop, htc] <;>
        by_cases hd : d.text_delta.isEmpty <;>
        simp only [hd, if_true, if_false] <;>
        exact ih _ _
    · rcases cb with _ | f
      · simp only [llmLoop, htc]
        by_cases hd : d.text_delta.isEmpty <;>
          simp only [hd, if_true, if_false] <;> exact ih _ _
      · simp only [llmLoop, htc]
        obtain ⟨s, hs⟩ :=
          ih (h ++ [{ role := "tool", content := execute_action (some f) jl tc,
                      tool_call_id := some tc.id }]) acc
        exact ⟨_, by rw [hs, List.append_assoc]⟩

-- ── trimHistory lemmas ───────────────────────────────────────────────────────

lemma trimHistory_length (m : Nat) (h : List Msg) (hm : 1 ≤ m) :
    (trimHistory m h).length ≤ m * 2 + 1 := by
  unfold trimHistory
  split
  · next hgt =>
    simp only [List.length_append, List.length_take, pyLastSlice]
    have h2m : m * 2 ≠ 0 := by omega
    simp only [h2m, if_false, List.length_drop]
    omega
  · next hle => omega

lemma trimHistory_head (m : Nat) (h : List Msg) (hne : h ≠ []) :
    (trimHistory m h).head? = h.head? := by
  unfold trimHistory
  split
  · next hgt =>
    cases h with
    | nil => simp at hne
    | cons a t => simp
  · rfl

lemma trimHistory_snoc_mem (m : Nat) (h : List Msg) (u : Msg) (hm : 1 ≤ m) :
    u ∈ trimHistory m (h ++ [u]) := by
  unfold trimHistory
  split
  · next hgt =>
    refine List.mem_append_right _ ?_
    have h2m : m * 2 ≠ 0 := by omega
    simp only [pyLastSlice, h2m, if_false]
    have hlen : (h ++ [u]).length - m * 2 ≤ h.length := by
      simp only [List.length_append, List.length_singleton]
      omega
    rw [List.drop_append_of_le_length hlen]
    exact List.mem_append_right _ (by simp)
  · exact List.mem_append_right _ (by simp)

-- ── Segmenter lemmas ─────────────────────────────────────────────────────────

/-- The last `n` elements of a list. -/
def lastN {α : Type} (n : Nat) (xs : List α) : List α := xs.drop (xs.length - n)

lemma lastN_length {α : Type} (n : Nat) (xs : List α) :
    (lastN n xs).length = min n xs.length := by
  simp only [lastN, List.length_drop]
  omega

lemma lastN_all {α : Type} (n : Nat) (xs : List α) (h : xs.length ≤ n) :
    lastN n xs = xs := by
  simp [lastN, Nat.sub_eq_zero_of_le h]

lemma lastN_cons_of_le {α : Type} (n : Nat) (x : α) (xs : List α)
    (h : n ≤ xs.length) : lastN n (x :: xs) = lastN n xs := by
  simp only [lastN, List.length_cons]
  have he : xs.length + 1 - n = (xs.length - n) + 1 := by omega
  rw [he, List.drop_succ_cons]

lemma lastN_subset_of_le {α : Type} (m k : Nat) (xs : List α) (h : m ≤ k) :
    ∀ x ∈ lastN m xs, x ∈ lastN k xs := by
  intro x hx
  simp only [lastN] at hx ⊢
  have he : xs.drop (xs.length - m) =
      (xs.drop (xs.length - k)).drop ((xs.length - m) - (xs.length - k)) := by
    rw [List.drop_drop]
    congr 1
    omega
  rw [he] at hx
  exact List.drop_subset _ _ hx

lemma lastN_concat_getLast {α : Type} (n : Nat) (xs : List α) (k : α)
    (hn : 1 ≤ n) : (lastN n (xs ++ [k])).getLast? = some k := by
  simp only [lastN, List.length_append, List.length_singleton]
  have h : xs.length + 1 - n ≤ xs.length := by omega
  rw [List.drop_append_of_le_length h,
      List.getLast?_append_of_ne_nil _ (by simp : ([k] : List α) ≠ [])]
  rfl

lemma ringPush_lastN (n : Nat) (xs : List Frame) (f : Frame) :
    ringPush n (lastN n xs) f = lastN n (xs ++ [f]) := by
  rcases Nat.lt_or_ge xs.length n with hlt | hge
  · unfold ringPush
    rw [lastN_all n xs (Nat.le_of_lt hlt),
        lastN_all n (xs ++ [f]) (by simp; omega)]
    have hc : ¬ (xs ++ [f]).length > n := by simp; omega
    rw [if_neg hc]
  · rcases Nat.eq_zero_or_pos n with hn | hn
    · subst hn
      unfold ringPush
      have h1 : lastN 0 xs = [] := by
        have := lastN_length 0 xs
        simp only [Nat.min_zero, Nat.zero_min] at this
        exact List.length_eq_zero.mp (by omega)
      have h2 : lastN 0 (xs ++ [f]) = [] := by
        have := lastN_length 0 (xs ++ [f])
        simp only [Nat.min_zero, Nat.zero_min] at this
        exact List.length_eq_zero.mp (by omega)
      rw [h1, h2]
      simp
    · unfold ringPush
      have hlen : (lastN n xs).length = n := by
        rw [lastN_length]; omega
      have hgt : (lastN n xs ++ [f]).length > n := by
        simp [hlen]
      rw [if_pos hgt]
      simp only [lastN, List.length_append, List.length_singleton]
      have h1 : 1 ≤ (xs.drop (xs.length - n)).length := by
        rw [List.length_drop]; omega
      have h2 : xs.length + 1 - n ≤ xs.length := by omega
      rw [List.drop_append_of_le_length h1, List.drop_drop,
          List.drop_append_of_le_length h2]
      have he : xs.length - n + 1 = xs.length + 1 - n := by omega
      rw [he]

lemma foldl_ringPush (n : Nat) (ys : List Frame) :
    ∀ xs : List Frame,
      List.foldl (ringPush n) (lastN n xs) ys = lastN n (xs ++ ys) := by
  induction ys with
  | nil => intro xs; simp
  | cons y ys ih =>
    intro xs
    rw [List.foldl_cons, ringPush_lastN, ih (xs ++ [y])]
    simp

lemma foldl_ringPush_nil (n : Nat) (ys : List Frame) :
    List.foldl (ringPush n) [] ys = lastN n ys := by
  have h := foldl_ringPush n ys []
  simpa [lastN] using h

lemma phase1_onset (thr : ℚ) (preMax maxWait : Nat) (k : Frame)
    (hk : thr < k.rms) :
    ∀ (preIn : List Frame) (w : Nat) (pre : List Frame)
      (rest : List (Option Frame)),
      (∀ f ∈ preIn, ¬ thr < f.rms) → w + preIn.length < maxWait →
      phase1 thr preMax maxWait (preIn.map some ++ some k :: rest) w pre =
        some (List.foldl (ringPush preMax) pre (preIn ++ [k]), rest) := by
  intro preIn
  induction preIn with
  | nil =>
    intro w pre rest _ _
    simp [phase1, hk]
  | cons f preIn ih =>
    intro w pre rest hall hw
    have hf : ¬ thr < f.rms := hall f (by simp)
    have hw1 : ¬ maxWait ≤ w + 1 := by
      simp only [List.length_cons] at hw
      omega
    simp only [List.map_cons, List.cons_append, phase1]
    rw [if_neg hf, if_neg hw1]
    simp only [List.append_eq]
    rw [ih (w + 1) (ringPush preMax pre f) rest
          (fun x hx => hall x (by simp [hx]))
          (by simp only [List.length_cons] at hw; omega)]
    simp

lemma phase1_timeout (thr : ℚ) (preMax maxWait : Nat) :
    ∀ (sil : List Frame) (rest : List (Option Frame)) (w : Nat)
      (pre : List Frame),
      (∀ f ∈ sil, ¬ thr < f.rms) → maxWait ≤ w + sil.length → w < maxWait →
      phase1 thr preMax maxWait (sil.map some ++ rest) w pre = none := by
  intro sil
  induction sil with
  | nil =>
    intro rest w pre _ h1 h2
    simp only [List.length_nil, Nat.add_zero] at h1
    omega
  | cons f sil ih =>
    intro rest w pre hall hle hlt
    have hf : ¬ thr < f.rms := hall f (by simp)
    simp only [List.map_cons, List.cons_append, phase1]
    rw [if_neg hf]
    by_cases hstop : maxWait ≤ w + 1
    · rw [if_pos hstop]
    · rw [if_neg hstop]
      exact ih rest (w + 1) _ (fun x hx => hall x (by simp [hx]))
        (by simp only [List.length_cons] at hle; omega) (by omega)

lemma phase2_take (thr : ℚ) (mS sC : Nat) :
    ∀ (frames : List Frame) (s c : Nat),
      ∃ n, n ≤ frames.length ∧
        phase2 thr mS sC (frames.map some) s c = frames.take n := by
  intro frames
  induction frames with
  | nil => intro s c; exact ⟨0, by simp [phase2]⟩
  | cons f fr ih =>
    intro s c
    simp only [List.map_cons, phase2]
    by_cases hl : thr < f.rms
    · rw [if_pos hl]
      obtain ⟨n, hn, he⟩ := ih (s + 1) 0
      exact ⟨n + 1, by simp; omega, by simp [he]⟩
    · rw [if_neg hl]
      by_cases hms : mS ≤ s + 1
      · rw [if_pos hms]
        by_cases hsc : sC ≤ c + 1
        · rw [if_pos hsc]
          exact ⟨1, by simp, rfl⟩
        · rw [if_neg hsc]
          obtain ⟨n, hn, he⟩ := ih (s + 1) (c + 1)
          exact ⟨n + 1, by simp; omega, by simp [he]⟩
      · rw [if_neg hms]
        obtain ⟨n, hn, he⟩ := ih (s + 1) c
        exact ⟨n + 1, by simp; omega, by simp [he]⟩

lemma phase2_term (thr : ℚ) (mS sC : Nat) :
    ∀ (frames : List Frame) (s c : Nat),
      (phase2 thr mS sC (frames.map some) s c).length < frames.length →
      mS ≤ s + (phase2 thr mS sC (frames.map some) s c).length ∧
      ∃ k, k ≤ (phase2 thr mS sC (frames.map some) s c).length ∧
        (∀ f ∈ lastN k (phase2 thr mS sC (frames.map some) s c), ¬ thr < f.rms) ∧
        (sC ≤ k ∨ (sC ≤ c + k ∧ k = (phase2 thr mS sC (frames.map some) s c).length)) := by
  intro frames
  induction frames with
  | nil =>
    intro s c h
    simp [phase2] at h
  | cons f fr ih =>
    intro s c h
    by_cases hl : thr < f.rms
    · have hred : phase2 thr mS sC ((f :: fr).map some) s c =
          f :: phase2 thr mS sC (fr.map some) (s + 1) 0 := by
        simp [phase2, hl]
      rw [hred] at h ⊢
      simp only [List.length_cons] at h ⊢
      obtain ⟨hms, k, hk, hlow, hdisj⟩ := ih (s + 1) 0 (by omega)
      refine ⟨by omega, k, by omega, ?_, ?_⟩
      · rw [lastN_cons_of_le k f _ hk]
        exact hlow
      · left
        rcases hdisj with h1 | ⟨h1, _⟩ <;> omega
    · by_cases hms : mS ≤ s + 1
      · by_cases hsc : sC ≤ c + 1
        · have hred : phase2 thr mS sC ((f :: fr).map some) s c = [f] := by
            simp [phase2, hl, hms, hsc]
          rw [hred] at h ⊢
          refine ⟨by simp only [List.length_singleton]; omega, 1, by simp, ?_, ?_⟩
          · rw [lastN_all _ _ (by simp)]
            intro x hx
            obtain rfl := List.mem_singleton.mp hx
            exact hl
          · right
            exact ⟨by omega, by simp⟩
        · have hred : phase2 thr mS sC ((f :: fr).map some) s c =
              f :: phase2 thr mS sC (fr.map some) (s + 1) (c + 1) := by
            simp [phase2, hl, hms, hsc]
          rw [hred] at h ⊢
          simp only [List.length_cons] at h ⊢
          obtain ⟨hms2, k, hk, hlow, hdisj⟩ := ih (s + 1) (c + 1) (by omega)
          rcases hdisj with h1 | ⟨h1, h2⟩
          · refine ⟨by omega, k, by omega, ?_, Or.inl h1⟩
            rw [lastN_cons_of_le k f _ hk]
            exact hlow
          · refine ⟨by omega, k + 1, by omega, ?_, ?_⟩
            · rw [lastN_all _ _ (by simp; omega)]
              intro x hx
              rcases List.mem_cons.mp hx with rfl | hx'
              · exact hl
              · exact hlow x (by rwa [lastN_all _ _ (by omega)])
            · right
              constructor
              · omega
              · simp
                omega
      · have hred : phase2 thr mS sC ((f :: fr).map some) s c =
            f :: phase2 thr mS sC (fr.map some) (s + 1) c := by
          simp [phase2, hl, hms]
        rw [hred] at h ⊢
        simp only [List.length_cons] at h ⊢
        obtain ⟨hms2, k, hk, hlow, hdisj⟩ := ih (s + 1) c (by omega)
        rcases hdisj with h1 | ⟨h1, h2⟩
        · refine ⟨by omega, k, by omega, ?_, Or.inl h1⟩
          rw [lastN_cons_of_le k f _ hk]
          exact hlow
        · refine ⟨by omega, k + 1, by omega, ?_, ?_⟩
          · rw [lastN_all _ _ (by simp; omega)]
            intro x hx
            rcases List.mem_cons.mp hx with rfl | hx'
            · exact hl
            · exact hlow x (by rwa [lastN_all _ _ (by omega)])
          · right
            constructor
            · omega
            · simp
              omega

-- ── Event classification helpers ─────────────────────────────────────────────

/-- Does this event carry an `IDLE` turn signal? -/
def isIdleSignal (e : GatewayEvent) : Bool :=
  match e.turn_signal with
  | some s => match s.event with
    | TurnState.IDLE => true
    | _ => false
  | none => false

/-- Does this event carry LLM text? -/
def isLlmText (e : GatewayEvent) : Bool := e.llm_text.isSome

@[simp] lemma isIdleSignal_mkSignalEvent (sig : TurnSignal) :
    isIdleSignal (mkSignalEvent sig) =
      (match sig.event with
       | TurnState.IDLE => true
       | _ => false) := rfl

@[simp] lemma isIdleSignal_mkTranscriptEvent (t : TranscriptResult) :
    isIdleSignal (mkTranscriptEvent t) = false := rfl

@[simp] lemma isIdleSignal_mkChunkEvent (c : SynthesisResult) :
    isIdleSignal (mkChunkEvent c) = false := rfl

@[simp] lemma isIdleSignal_mkLlmTextEvent (t : Str) :
    isIdleSignal (mkLlmTextEvent t) = false := rfl

@[simp] lemma isLlmText_mkSignalEvent (sig : TurnSignal) :
    isLlmText (mkSignalEvent sig) = false := rfl

@[simp] lemma isLlmText_mkTranscriptEvent (t : TranscriptResult) :
    isLlmText (mkTranscriptEvent t) = false := rfl

@[simp] lemma isLlmText_mkChunkEvent (c : SynthesisResult) :
    isLlmText (mkChunkEvent c) = false := rfl

@[simp] lemma isLlmText_mkLlmTextEvent (t : Str) :
    isLlmText (mkLlmTextEvent t) = true := rfl

lemma filter_isIdle_transcripts (l : List TranscriptResult) :
    (l.map mkTranscriptEvent).filter isIdleSignal = [] := by
  apply List.filter_eq_nil_iff.mpr
  intro e he
  obtain ⟨t, _, rfl⟩ := List.mem_map.mp he
  simp

lemma filter_isIdle_chunks (l : List SynthesisResult) :
    (l.map mkChunkEvent).filter isIdleSignal = [] := by
  apply List.filter_eq_nil_iff.mpr
  intro e he
  obtain ⟨c, _, rfl⟩ := List.mem_map.mp he
  simp

lemma filter_isLlmText_transcripts (l : List TranscriptResult) :
    (l.map mkTranscriptEvent).filter isLlmText = [] := by
  apply List.filter_eq_nil_iff.mpr
  intro e he
  obtain ⟨t, _, rfl⟩ := List.mem_map.mp he
  simp

lemma filter_isLlmText_chunks (l : List SynthesisResult) :
    (l.map mkChunkEvent).filter isLlmText = [] := by
  apply List.filter_eq_nil_iff.mpr
  intro e he
  obtain ⟨c, _, rfl⟩ := List.mem_map.mp he
  simp

-- ── Code-point slicing lemma ─────────────────────────────────────────────────

/-- Slicing within the first summand of an appended string only reads the
first summand. -/
lemma pySlice_append_left (s t : Str) (a b : Nat) (hb : b ≤ s.length) :
    pySlice (s ++ t) a b = pySlice s a b := by
  unfold pySlice
  by_cases hab : a ≤ s.length
  · rw [List.drop_append_of_le_length hab,
        List.take_append_of_le_length (by rw [List.length_drop]; omega)]
  · have hz : b - a = 0 := by omega
    rw [hz]
    simp

-- ── Concrete fixtures for witnesses and counterexamples ──────────────────────

/-- A small system prompt. -/
def sysW : Str := "sys".data

/-- A session config with one language hint. -/
def cfgW : SessionConfig :=
  { language_hints := [{ bcp47_code := "hi-IN" }], session_id := "s" }

/-- A gateway with `max_history_turns = 6` and no action callback. -/
def gW : VaniGatewayStub := mkGateway cfgW sysW none 6 "t1"

/-- A final transcript with non-empty text. -/
def ftW : TranscriptResult :=
  { text := "hi".data, is_final := true, language_bcp47 := "hi-IN" }

/-- An STT stream yielding one final transcript. -/
def sttW : StreamRes TranscriptResult := { items := [ftW] }

/-- An STT stream that closes cleanly with no results. -/
def sttNone : StreamRes TranscriptResult := { items := [] }

/-- An STT stream that raises after yielding nothing. -/
def sttErr : StreamRes TranscriptResult :=
  { items := [], exn := some ("boom".data) }

/-- An LLM backend streaming one text delta. -/
def llmW : List Msg → StreamRes LLMResult := fun _ =>
  { items := [{ text_delta := "ok".data, is_final := true }] }

/-- One synthesized audio chunk. -/
def chunkW : SynthesisResult :=
  { audio_bytes := [0], codec := "PCM_16K_16", is_final := true }

/-- A TTS backend streaming one chunk. -/
def ttsW : Str → StreamRes SynthesisResult := fun _ => { items := [chunkW] }

/-- A JSON-loads oracle that always fails to decode. -/
def jlW : Str → Option Args := fun _ => none

-- ── Claims ───────────────────────────────────────────────────────────────────

/-- Claim C5: a turn whose STT stream yields no final result, or whose
final result is whitespace-only, yields exactly the LISTENING signal, the
forwarded transcript events, and an IDLE signal — nothing else, and no
exception: the short-circuit is not an error. -/
theorem c5_spec (g : VaniGatewayStub) (stt llm tts jl fid)
    (hexn : stt.exn = none)
    (hempty : ∀ ft, (stt.items.filter (·.is_final)).getLast? = some ft →
      pyStripEmpty ft.text = true) :
    (process_audio g stt llm tts jl fid).events =
      listeningEvents g stt ++ [mkSignalEvent (mkSignal g TurnState.IDLE)] ∧
    (process_audio g stt llm tts jl fid).raised = none ∧
    (process_audio g stt llm tts jl fid).g.state = TurnState.IDLE := by
  rcases hft : (stt.items.filter (·.is_final)).getLast? with _ | ft
  · rw [process_audio_noFinal g stt llm tts jl fid hexn hft]
    exact ⟨rfl, rfl, rfl⟩
  · rw [process_audio_wsFinal g stt llm tts jl fid ft hexn hft (hempty ft hft)]
    exact ⟨rfl, rfl, rfl⟩

/-- Witness for C5 at a concrete empty STT stream. -/
theorem c5_spec_witness :
    (process_audio gW sttNone llmW ttsW jlW "t2").events =
      listeningEvents gW sttNone ++ [mkSignalEvent (mkSignal gW TurnState.IDLE)] ∧
    (process_audio gW sttNone llmW ttsW jlW "t2").raised = none ∧
    (process_audio gW sttNone llmW ttsW jlW "t2").g.state = TurnState.IDLE :=
  c5_spec gW sttNone llmW ttsW jlW "t2" rfl (by intro ft h; simp [sttNone] at h)

/-- Claim C7: when every frame for the full max-wait duration stays at or
below the silence threshold, the segmenter yields zero frames and
terminates. -/
theorem c7_spec (thr : ℚ) (preMax maxWait minSpeech silenceChunks : Nat)
    (sil : List Frame) (rest : List (Option Frame))
    (hall : ∀ f ∈ sil, ¬ thr < f.rms)
    (hlen : maxWait ≤ sil.length) (hpos : 1 ≤ maxWait) :
    utterance_stream thr preMax maxWait minSpeech silenceChunks
      (sil.map some ++ rest) = [] := by
  unfold utterance_stream
  rw [phase1_timeout thr preMax maxWait sil rest 0 [] hall (by omega) (by omega)]

/-- Witness for C7: 750 all-silent 20 ms frames (the demo max wait) yield
an empty utterance. -/
theorem c7_spec_witness :
    utterance_stream SILENCE_THRESHOLD pre_max max_wait min_speech_chunks
      silence_chunks ((List.replicate 750 (Frame.mk 0)).map some ++ []) = [] :=
  c7_spec SILENCE_THRESHOLD pre_max max_wait min_speech_chunks silence_chunks
    (List.replicate 750 (Frame.mk 0)) []
    (by
      intro f hf
      rw [List.eq_of_mem_replicate hf]
      decide)
    (by rw [List.length_replicate]; decide) (by decide)

/-- Claim C10: with the default (empty) `language_hints` of `SessionConfig`
and a final transcript whose detected language is empty, `process_audio`
raises an uncaught IndexError at the response-language selection — the
turn crashes after THINKING with no error event. -/
theorem c10_spec (g : VaniGatewayStub) (stt llm tts jl fid)
    (ft : TranscriptResult)
    (hcfg : g.config.language_hints = [])
    (hexn : stt.exn = none)
    (hft : (stt.items.filter (·.is_final)).getLast? = some ft)
    (htext : pyStripEmpty ft.text = false)
    (hlang : ft.language_bcp47 = "") :
    (process_audio g stt llm tts jl fid).raised = some PyExn.indexError ∧
    (process_audio g stt llm tts jl fid).events =
      listeningEvents g stt ++ [mkSignalEvent (mkSignal g TurnState.THINKING)] ∧
    (process_audio g stt llm tts jl fid).events.all
      (fun e => e.error.isNone) = true := by
  have hresp : respLang ft (g.config.language_hints.map (·.bcp47_code)) = none := by
    simp [respLang, hlang, hcfg]
  rw [process_audio_indexError g stt llm tts jl fid ft hexn hft htext hresp]
  refine ⟨rfl, rfl, ?_⟩
  simp only [List.all_eq_true]
  intro e he
  rcases List.mem_append.mp he with h | h
  · rcases List.mem_cons.mp h with rfl | h
    · rfl
    · obtain ⟨t, _, rfl⟩ := List.mem_map.mp h
      rfl
  · rw [List.mem_singleton.mp h]
    rfl

/-- A default-constructed session config (empty hint list). -/
def cfgDefault : SessionConfig := {}

/-- A gateway built over the default config. -/
def gDefault : VaniGatewayStub := mkGateway cfgDefault sysW none 10 "t1"

/-- A final transcript with empty detected language. -/
def ftNoLang : TranscriptResult :=
  { text := "hi".data, is_final := true, language_bcp47 := "" }

/-- An STT stream yielding only `ftNoLang`. -/
def sttNoLang : StreamRes TranscriptResult := { items := [ftNoLang] }

/-- Witness for C10: the default-constructed config crashes the turn. -/
theorem c10_spec_witness :
    (process_audio gDefault sttNoLang llmW ttsW jlW "t2").raised =
      some PyExn.indexError ∧
    (process_audio gDefault sttNoLang llmW ttsW jlW "t2").events =
      listeningEvents gDefault sttNoLang
        ++ [mkSignalEvent (mkSignal gDefault TurnState.THINKING)] ∧
    (process_audio gDefault sttNoLang llmW ttsW jlW "t2").events.all
      (fun e => e.error.isNone) = true :=
  c10_spec gDefault sttNoLang llmW ttsW jlW "t2" ftNoLang rfl rfl (by rfl)
    (by decide) rfl

/-- Claim C6: when the first frame exceeding the silence threshold is `k`
(after only-silent frames, before the max wait), the output begins with
the ring-buffered pre-roll (at most `pre_max` frames ending with `k`),
continues with the subsequent frames in order, and — absent a sentinel —
stops early only after `trailing_silence` consecutive low-RMS frames have
been observed with at least `min_speech` frames streamed. -/
theorem c6_spec (thr : ℚ) (preMax maxWait minSpeech silenceChunks : Nat)
    (preIn rest : List Frame) (k : Frame)
    (hpre : ∀ f ∈ preIn, ¬ thr < f.rms)
    (hlen : preIn.length < maxWait)
    (hk : thr < k.rms)
    (hpm : 1 ≤ preMax) :
    utterance_stream thr preMax maxWait minSpeech silenceChunks
        (preIn.map some ++ some k :: rest.map some) =
      lastN preMax (preIn ++ [k])
        ++ phase2 thr minSpeech silenceChunks (rest.map some) 0 0 ∧
    (lastN preMax (preIn ++ [k])).length ≤ preMax ∧
    (lastN preMax (preIn ++ [k])).getLast? = some k ∧
    (∃ n, n ≤ rest.length ∧
      phase2 thr minSpeech silenceChunks (rest.map some) 0 0 = rest.take n) ∧
    ((phase2 thr minSpeech silenceChunks (rest.map some) 0 0).length <
        rest.length →
      minSpeech ≤ (phase2 thr minSpeech silenceChunks (rest.map some) 0 0).length ∧
      silenceChunks ≤
        (phase2 thr minSpeech silenceChunks (rest.map some) 0 0).length ∧
      ∀ f ∈ lastN silenceChunks
          (phase2 thr minSpeech silenceChunks (rest.map some) 0 0),
        ¬ thr < f.rms) := by
  refine ⟨?_, ?_, ?_, ?_, ?_⟩
  · unfold utterance_stream
    rw [phase1_onset thr preMax maxWait k hk preIn 0 [] (rest.map some) hpre
          (by omega),
        foldl_ringPush_nil]
  · rw [lastN_length]
    omega
  · exact lastN_concat_getLast preMax preIn k hpm
  · exact phase2_take thr minSpeech silenceChunks rest 0 0
  · intro hterm
    obtain ⟨hms, k', hk', hlow, hdisj⟩ :=
      phase2_term thr minSpeech silenceChunks rest 0 0 hterm
    have hsk : silenceChunks ≤ k' := by
      rcases hdisj with h | ⟨h, _⟩ <;> omega
    refine ⟨by omega, by omega, ?_⟩
    intro f hf
    exact hlow f (lastN_subset_of_le silenceChunks k' _ hsk f hf)

/-- Witness for C6 with the demo constants: two silent frames, onset at
RMS 600, then frames 700, 0. -/
theorem c6_spec_witness :
    utterance_stream SILENCE_THRESHOLD pre_max max_wait min_speech_chunks
        silence_chunks
        (([Frame.mk 0, Frame.mk 0]).map some
          ++ some (Frame.mk 600) :: ([Frame.mk 700, Frame.mk 0]).map some) =
      lastN pre_max ([Frame.mk 0, Frame.mk 0] ++ [Frame.mk 600])
        ++ phase2 SILENCE_THRESHOLD min_speech_chunks silence_chunks
            (([Frame.mk 700, Frame.mk 0]).map some) 0 0 ∧
    (lastN pre_max ([Frame.mk 0, Frame.mk 0] ++ [Frame.mk 600])).length ≤
      pre_max ∧
    (lastN pre_max ([Frame.mk 0, Frame.mk 0] ++ [Frame.mk 600])).getLast? =
      some (Frame.mk 600) ∧
    (∃ n, n ≤ ([Frame.mk 700, Frame.mk 0] : List Frame).length ∧
      phase2 SILENCE_THRESHOLD min_speech_chunks silence_chunks
          (([Frame.mk 700, Frame.mk 0]).map some) 0 0 =
        ([Frame.mk 700, Frame.mk 0]).take n) ∧
    ((phase2 SILENCE_THRESHOLD min_speech_chunks silence_chunks
          (([Frame.mk 700, Frame.mk 0]).map some) 0 0).length <
        ([Frame.mk 700, Frame.mk 0] : List Frame).length →
      min_speech_chunks ≤
        (phase2 SILENCE_THRESHOLD min_speech_chunks silence_chunks
          (([Frame.mk 700, Frame.mk 0]).map some) 0 0).length ∧
      silence_chunks ≤
        (phase2 SILENCE_THRESHOLD min_speech_chunks silence_chunks
          (([Frame.mk 700, Frame.mk 0]).map some) 0 0).length ∧
      ∀ f ∈ lastN silence_chunks
          (phase2 SILENCE_THRESHOLD min_speech_chunks silence_chunks
            (([Frame.mk 700, Frame.mk 0]).map some) 0 0),
        ¬ SILENCE_THRESHOLD < f.rms) :=
  c6_spec SILENCE_THRESHOLD pre_max max_wait min_speech_chunks silence_chunks
    [Frame.mk 0, Frame.mk 0] [Frame.mk 700, Frame.mk 0] (Frame.mk 600)
    (by
      intro f hf
      rcases List.mem_cons.mp hf with rfl | hf
      · decide
      · rcases List.mem_cons.mp hf with rfl | hf
        · decide
        · simp at hf)
    (by decide) (by decide) (by decide)

/-- Claim C1 (amended): for a successful turn the yielded sequence is
exactly LISTENING, the transcripts, THINKING, one llm_text, SPEAKING, the
synthesis chunks, and END_OF_TURN (carrying the regenerated turn id);
the machine then transitions to IDLE without yielding an IDLE signal, so
no IDLE turn-signal event appears in the stream. -/
theorem c1_spec (g : VaniGatewayStub) (stt llm tts jl fid)
    (ft : TranscriptResult) (lang : String)
    (hexn : stt.exn = none)
    (hft : (stt.items.filter (·.is_final)).getLast? = some ft)
    (htext : pyStripEmpty ft.text = false)
    (hlang : respLang ft (g.config.language_hints.map (·.bcp47_code)) = some lang)
    (hL : (llm (historyAfterUser g ft)).exn = none)
    (hfull : pyStripEmpty (llmOut g jl llm ft).2 = false)
    (hT : (tts (llmOut g jl llm ft).2).exn = none) :
    (process_audio g stt llm tts jl fid).events =
      listeningEvents g stt
        ++ [mkSignalEvent (mkSignal g TurnState.THINKING),
            mkLlmTextEvent (llmOut g jl llm ft).2,
            mkSignalEvent (mkSignal g TurnState.SPEAKING)]
        ++ (tts (llmOut g jl llm ft).2).items.map mkChunkEvent
        ++ [mkSignalEvent { event := TurnState.END_OF_TURN, turn_id := fid,
                            session_id := g.config.session_id }] ∧
    (process_audio g stt llm tts jl fid).raised = none ∧
    (process_audio g stt llm tts jl fid).g.state = TurnState.IDLE ∧
    (process_audio g stt llm tts jl fid).events.filter isIdleSignal = [] := by
  rw [process_audio_success g stt llm tts jl fid ft lang hexn hft htext hlang
        hL hfull hT]
  refine ⟨rfl, rfl, rfl, ?_⟩
  simp only [listeningEvents, List.filter_append, List.filter_cons,
    filter_isIdle_transcripts, filter_isIdle_chunks, isIdleSignal_mkSignalEvent,
    isIdleSignal_mkLlmTextEvent, mkSignal]
  simp

/-- Witness for C1 at a concrete successful turn. -/
theorem c1_spec_witness :
    (process_audio gW sttW llmW ttsW jlW "t2").events =
      listeningEvents gW sttW
        ++ [mkSignalEvent (mkSignal gW TurnState.THINKING),
            mkLlmTextEvent (llmOut gW jlW llmW ftW).2,
            mkSignalEvent (mkSignal gW TurnState.SPEAKING)]
        ++ (ttsW (llmOut gW jlW llmW ftW).2).items.map mkChunkEvent
        ++ [mkSignalEvent { event := TurnState.END_OF_TURN, turn_id := "t2",
                            session_id := "s" }] ∧
    (process_audio gW sttW llmW ttsW jlW "t2").raised = none ∧
    (process_audio gW sttW llmW ttsW jlW "t2").g.state = TurnState.IDLE ∧
    (process_audio gW sttW llmW ttsW jlW "t2").events.filter isIdleSignal = [] :=
  c1_spec gW sttW llmW ttsW jlW "t2" ftW "hi-IN" rfl rfl (by decide) rfl rfl
    (by decide) rfl

/-- Counterexample to C1 as stated: a successful turn (non-empty final
transcript and non-empty accumulated reply) in which no IDLE turn-signal
event is yielded at all — the sequence ends at END_OF_TURN. -/
theorem c1_cex :
    pyStripEmpty ftW.text = false ∧
    (sttW.items.filter (·.is_final)).getLast? = some ftW ∧
    (llmOut gW jlW llmW ftW).2 = "ok".data ∧
    pyStripEmpty (llmOut gW jlW llmW ftW).2 = false ∧
    (process_audio gW sttW llmW ttsW jlW "t2").raised = none ∧
    (process_audio gW sttW llmW ttsW jlW "t2").events.filter isIdleSignal = [] ∧
    (process_audio gW sttW llmW ttsW jlW "t2").events.getLast? =
      some (mkSignalEvent { event := TurnState.END_OF_TURN, turn_id := "t2",
                            session_id := "s" }) := by
  refine ⟨by decide, rfl, rfl, by decide, rfl, rfl, rfl⟩

/-- Heads are preserved by appending on the right. -/
lemma head_append_left {α : Type} (l m : List α) (a : α)
    (h : l.head? = some a) : (l ++ m).head? = some a := by
  cases l with
  | nil => simp at h
  | cons x t =>
    simp only [List.head?_cons, Option.some.injEq] at h
    simp [h]

/-- Claim C2 (amended): for a turn with no action callback (so no tool
entries), the history invariant preserved by `process_audio` is
`len ≤ 2·max_history_turns + 2` — one more than the claimed bound,
because the assistant entry is appended after the trim — and the head
stays the system entry.  (With `max_history_turns = 6`, ten successful
turns leave 14 entries, not 13; see the counterexample.) -/
theorem c2_spec (g : VaniGatewayStub) (stt llm tts jl fid) (sysM : Msg)
    (hm : 1 ≤ g.max_history_turns)
    (hcb : g.action_callback = none)
    (hlen : g.history.length ≤ 2 * g.max_history_turns + 2)
    (hhead : g.history.head? = some sysM) :
    (process_audio g stt llm tts jl fid).g.history.length ≤
      2 * g.max_history_turns + 2 ∧
    (process_audio g stt llm tts jl fid).g.history.head? = some sysM := by
  rcases hexn : stt.exn with _ | m
  · rcases hft : (stt.items.filter (·.is_final)).getLast? with _ | ft
    · rw [process_audio_noFinal g stt llm tts jl fid hexn hft]
      exact ⟨hlen, hhead⟩
    · by_cases htext : pyStripEmpty ft.text = true
      · rw [process_audio_wsFinal g stt llm tts jl fid ft hexn hft htext]
        exact ⟨hlen, hhead⟩
      · have htext2 : pyStripEmpty ft.text = false := by
          revert htext
          cases pyStripEmpty ft.text <;> simp
        have hh2len : (historyAfterUser g ft).length ≤
            g.max_history_turns * 2 + 1 := trimHistory_length _ _ hm
        have hh2head : (historyAfterUser g ft).head? = some sysM := by
          unfold historyAfterUser
          rw [trimHistory_head _ _ (by simp)]
          exact head_append_left _ _ _ hhead
        have hout1 : (llmOut g jl llm ft).1 = historyAfterUser g ft := by
          unfold llmOut
          rw [hcb, llmLoop_cb_none]
        rcases hresp : respLang ft (g.config.language_hints.map (·.bcp47_code))
          with _ | lang
        · rw [process_audio_indexError g stt llm tts jl fid ft hexn hft htext2
              hresp]
          refine ⟨?_, hh2head⟩
          show (historyAfterUser g ft).length ≤ _
          omega
        · rcases hL : (llm (historyAfterUser g ft)).exn with _ | m
          · by_cases hfull : pyStripEmpty (llmOut g jl llm ft).2 = true
            · rw [process_audio_emptyReply g stt llm tts jl fid ft lang hexn
                  hft htext2 hresp hL hfull]
              constructor
              · show ((llmOut g jl llm ft).1).length ≤ _
                rw [hout1]
                omega
              · show ((llmOut g jl llm ft).1).head? = _
                rw [hout1]
                exact hh2head
            · have hfull2 : pyStripEmpty (llmOut g jl llm ft).2 = false := by
                revert hfull
                cases pyStripEmpty (llmOut g jl llm ft).2 <;> simp
              rcases hT : (tts (llmOut g jl llm ft).2).exn with _ | m
              · rw [process_audio_success g stt llm tts jl fid ft lang hexn
                    hft htext2 hresp hL hfull2 hT]
                constructor
                · show ((llmOut g jl llm ft).1 ++ [_]).length ≤ _
                  rw [hout1]
                  simp only [List.length_append, List.length_singleton]
                  omega
                · show ((llmOut g jl llm ft).1 ++ [_]).head? = _
                  rw [hout1]
                  exact head_append_left _ _ _ hh2head
              · rw [process_audio_ttsExn g stt llm tts jl fid ft lang m hexn
                    hft htext2 hresp hL hfull2 hT]
                constructor
                · show ((llmOut g jl llm ft).1 ++ [_]).length ≤ _
                  rw [hout1]
                  simp only [List.length_append, List.length_singleton]
                  omega
                · show ((llmOut g jl llm ft).1 ++ [_]).head? = _
                  rw [hout1]
                  exact head_append_left _ _ _ hh2head
          · rw [process_audio_llmExn g stt llm tts jl fid ft lang m hexn hft
                htext2 hresp hL]
            constructor
            · show ((llmOut g jl llm ft).1).length ≤ _
              rw [hout1]
              omega
            · show ((llmOut g jl llm ft).1).head? = _
              rw [hout1]
              exact hh2head
  · rw [process_audio_sttExn g stt llm tts jl fid m hexn]
    exact ⟨hlen, hhead⟩

/-- Witness for C2 at a concrete turn over `gW`. -/
theorem c2_spec_witness :
    (process_audio gW sttW llmW ttsW jlW "t2").g.history.length ≤
      2 * gW.max_history_turns + 2 ∧
    (process_audio gW sttW llmW ttsW jlW "t2").g.history.head? =
      some { role := "system", content := sysW } :=
  c2_spec gW sttW llmW ttsW jlW "t2" { role := "system", content := sysW }
    (by decide) rfl (by decide) rfl

/-- One fixed successful turn, as iterated in the C2 scenario. -/
def turnW (g : VaniGatewayStub) : VaniGatewayStub :=
  (process_audio g sttW llmW ttsW jlW "t").g

/-- The gateway after `n` such turns, starting from `gW`
(`max_history_turns = 6`). -/
def afterTurnsW : Nat → VaniGatewayStub
  | 0 => gW
  | n + 1 => turnW (afterTurnsW n)

/-- Counterexample to C2 as stated: with `max_history_turns = 6`, after
10 successful turns the history holds 14 entries — the assistant append
comes after the trim — violating both the claimed bound
`len ≤ 2·6 + 1 = 13` and the claimed exact count 13. -/
theorem c2_cex :
    (afterTurnsW 10).history.length = 14 ∧
    ¬ ((afterTurnsW 10).history.length ≤ 2 * 6 + 1) ∧
    (afterTurnsW 10).history.length ≠ 13 := by
  have h : (afterTurnsW 10).history.length = 14 := by rfl
  refine ⟨h, by rw [h]; decide, by rw [h]; decide⟩

/-- Claim C3 (amended): a backend-stream exception at any stage — STT,
LLM or TTS — propagates out of `process_audio` uncaught, after the events
yielded before the raise; no `GatewayEvent` with a populated `error`
field is ever yielded on any run; and a clean STT closure with no data
routes to IDLE with no error. -/
theorem c3_spec (g : VaniGatewayStub)
    (llm : List Msg → StreamRes LLMResult)
    (tts : Str → StreamRes SynthesisResult)
    (jl : Str → Option Args) (fid : String)
    (stt : StreamRes TranscriptResult) (m : Str)
    (hm : stt.exn = some m)
    (stt2 : StreamRes TranscriptResult)
    (hexn2 : stt2.exn = none) (hitems2 : stt2.items = [])
    (stt3 : StreamRes TranscriptResult) (ft : TranscriptResult)
    (lang : String) (llm3 : List Msg → StreamRes LLMResult) (mL : Str)
    (hexn3 : stt3.exn = none)
    (hft3 : (stt3.items.filter (·.is_final)).getLast? = some ft)
    (htext3 : pyStripEmpty ft.text = false)
    (hlang3 : respLang ft (g.config.language_hints.map (·.bcp47_code)) = some lang)
    (hL3 : (llm3 (historyAfterUser g ft)).exn = some mL)
    (llm4 : List Msg → StreamRes LLMResult)
    (tts4 : Str → StreamRes SynthesisResult) (mT : Str)
    (hL4 : (llm4 (historyAfterUser g ft)).exn = none)
    (hfull4 : pyStripEmpty (llmOut g jl llm4 ft).2 = false)
    (hT4 : (tts4 (llmOut g jl llm4 ft).2).exn = some mT) :
    (∀ g2 stt5 llm5 tts5 jl5 fid5,
      ∀ e ∈ (process_audio g2 stt5 llm5 tts5 jl5 fid5).events,
        e.error = none) ∧
    ((process_audio g stt llm tts jl fid).raised = some (PyExn.pyError m) ∧
     (process_audio g stt llm tts jl fid).events = listeningEvents g stt ∧
     (process_audio g stt llm tts jl fid).events.all
       (fun e => e.error.isNone) = true) ∧
    ((process_audio g stt2 llm tts jl fid).events =
       [mkSignalEvent (mkSignal g TurnState.LISTENING),
        mkSignalEvent (mkSignal g TurnState.IDLE)] ∧
     (process_audio g stt2 llm tts jl fid).raised = none ∧
     (process_audio g stt2 llm tts jl fid).g.state = TurnState.IDLE) ∧
    ((process_audio g stt3 llm3 tts jl fid).raised =
       some (PyExn.pyError mL) ∧
     (process_audio g stt3 llm3 tts jl fid).events =
       listeningEvents g stt3
         ++ [mkSignalEvent (mkSignal g TurnState.THINKING)]) ∧
    ((process_audio g stt3 llm4 tts4 jl fid).raised =
       some (PyExn.pyError mT) ∧
     (process_audio g stt3 llm4 tts4 jl fid).events =
       listeningEvents g stt3
         ++ [mkSignalEvent (mkSignal g TurnState.THINKING),
             mkLlmTextEvent (llmOut g jl llm4 ft).2,
             mkSignalEvent (mkSignal g TurnState.SPEAKING)]
         ++ (tts4 (llmOut g jl llm4 ft).2).items.map mkChunkEvent) := by
  have herr := process_audio_error_none g stt llm tts jl fid
  have hft2 : (stt2.items.filter (·.is_final)).getLast? = none := by
    rw [hitems2]
    rfl
  refine ⟨fun g2 stt5 llm5 tts5 jl5 fid5 =>
      process_audio_error_none g2 stt5 llm5 tts5 jl5 fid5,
    ⟨?_, ?_, ?_⟩, ⟨?_, ?_, ?_⟩, ⟨?_, ?_⟩, ⟨?_, ?_⟩⟩
  · rw [process_audio_sttExn g stt llm tts jl fid m hm]
  · rw [process_audio_sttExn g stt llm tts jl fid m hm]
  · simp only [List.all_eq_true]
    intro e he
    simp [herr e he]
  · rw [process_audio_noFinal g stt2 llm tts jl fid hexn2 hft2]
    simp [listeningEvents, hitems2]
  · rw [process_audio_noFinal g stt2 llm tts jl fid hexn2 hft2]
  · rw [process_audio_noFinal g stt2 llm tts jl fid hexn2 hft2]
    rfl
  · rw [process_audio_llmExn g stt3 llm3 tts jl fid ft lang mL hexn3 hft3
        htext3 hlang3 hL3]
  · rw [process_audio_llmExn g stt3 llm3 tts jl fid ft lang mL hexn3 hft3
        htext3 hlang3 hL3]
  · rw [process_audio_ttsExn g stt3 llm4 tts4 jl fid ft lang mT hexn3 hft3
        htext3 hlang3 hL4 hfull4 hT4]
  · rw [process_audio_ttsExn g stt3 llm4 tts4 jl fid ft lang mT hexn3 hft3
        htext3 hlang3 hL4 hfull4 hT4]

/-- An LLM backend that raises after yielding nothing. -/
def llmErr : List Msg → StreamRes LLMResult := fun _ =>
  { items := [], exn := some ("llmboom".data) }

/-- A TTS backend that raises after yielding nothing. -/
def ttsErr : Str → StreamRes SynthesisResult := fun _ =>
  { items := [], exn := some ("ttsboom".data) }

/-- Witness for C3 at concrete raising STT, LLM and TTS streams plus an
empty clean STT stream. -/
theorem c3_spec_witness :
    (process_audio gW sttErr llmW ttsW jlW "t2").raised =
      some (PyExn.pyError ("boom".data)) ∧
    (process_audio gW sttErr llmW ttsW jlW "t2").events =
      listeningEvents gW sttErr ∧
    (process_audio gW sttErr llmW ttsW jlW "t2").events.all
      (fun e => e.error.isNone) = true ∧
    (process_audio gW sttNone llmW ttsW jlW "t2").events =
      [mkSignalEvent (mkSignal gW TurnState.LISTENING),
       mkSignalEvent (mkSignal gW TurnState.IDLE)] ∧
    (process_audio gW sttW llmErr ttsW jlW "t2").raised =
      some (PyExn.pyError ("llmboom".data)) ∧
    (process_audio gW sttW llmErr ttsW jlW "t2").events =
      listeningEvents gW sttW
        ++ [mkSignalEvent (mkSignal gW TurnState.THINKING)] ∧
    (process_audio gW sttW llmW ttsErr jlW "t2").raised =
      some (PyExn.pyError ("ttsboom".data)) := by
  have h := c3_spec gW llmW ttsW jlW "t2" sttErr ("boom".data) rfl
    sttNone rfl rfl sttW ftW "hi-IN" llmErr ("llmboom".data) rfl rfl
    (by decide) rfl rfl llmW ttsErr ("ttsboom".data) rfl (by decide) rfl
  exact ⟨h.2.1.1, h.2.1.2.1, h.2.1.2.2, h.2.2.1.1, h.2.2.2.1.1,
    h.2.2.2.1.2, h.2.2.2.2.1⟩

/-- Counterexample to C3 as stated: a mid-turn STT exception is not
converted to an error event — it escapes `process_audio`, and the yielded
events carry no populated `error` field. -/
theorem c3_cex :
    (process_audio gW sttErr llmW ttsW jlW "t2").raised =
      some (PyExn.pyError ("boom".data)) ∧
    ((process_audio gW sttErr llmW ttsW jlW "t2").events.filter
      (fun e => e.error.isSome)).length = 0 := by
  exact ⟨rfl, rfl⟩

/-- Claim C4: an LLM stream with exactly one tool-call element (no text)
among otherwise tool-free elements dispatches exactly one Action Executor
call, appends its result as one tool message, accumulates the reply as
the concatenation of all text deltas, and then behaves like a normal
reply: whitespace-only short-circuits to IDLE with no llm_text, otherwise
exactly one llm_text event carries the accumulated reply. -/
theorem c4_spec (g : VaniGatewayStub) (stt llm tts jl fid)
    (ft : TranscriptResult) (lang : String) (f : ActionCallback)
    (tc : ToolCall) (pre post : List LLMResult) (d1 : LLMResult)
    (hexn : stt.exn = none)
    (hft : (stt.items.filter (·.is_final)).getLast? = some ft)
    (htext : pyStripEmpty ft.text = false)
    (hlang : respLang ft (g.config.language_hints.map (·.bcp47_code)) = some lang)
    (hcb : g.action_callback = some f)
    (hitems : (llm (historyAfterUser g ft)).items = pre ++ d1 :: post)
    (hpre : ∀ d ∈ pre, d.tool_call = none)
    (hpost : ∀ d ∈ post, d.tool_call = none)
    (hd1 : d1.tool_call = some tc)
    (_hd1t : d1.text_delta = [])
    (hL : (llm (historyAfterUser g ft)).exn = none) :
    (llmOut g jl llm ft).1 = historyAfterUser g ft
      ++ [{ role := "tool", content := execute_action (some f) jl tc,
            tool_call_id := some tc.id }] ∧
    (llmOut g jl llm ft).2 = textConcat pre ++ textConcat post ∧
    (pyStripEmpty (llmOut g jl llm ft).2 = true →
      (process_audio g stt llm tts jl fid).events =
        listeningEvents g stt ++ [mkSignalEvent (mkSignal g TurnState.THINKING),
          mkSignalEvent (mkSignal g TurnState.IDLE)] ∧
      (process_audio g stt llm tts jl fid).raised = none) ∧
    (pyStripEmpty (llmOut g jl llm ft).2 = false →
      (tts (llmOut g jl llm ft).2).exn = none →
      (process_audio g stt llm tts jl fid).events.filter isLlmText =
        [mkLlmTextEvent (llmOut g jl llm ft).2]) := by
  have hloop : llmOut g jl llm ft =
      (historyAfterUser g ft
        ++ [{ role := "tool", content := execute_action (some f) jl tc,
              tool_call_id := some tc.id }],
       textConcat pre ++ textConcat post) := by
    unfold llmOut
    rw [hcb, hitems, llmLoop_append (some f) jl pre (d1 :: post),
        llmLoop_noTool (some f) jl pre hpre]
    simp only [llmLoop, hd1]
    rw [llmLoop_noTool (some f) jl post hpost]
    simp
  refine ⟨?_, ?_, ?_, ?_⟩
  · rw [hloop]
  · rw [hloop]
  · intro hfull
    rw [process_audio_emptyReply g stt llm tts jl fid ft lang hexn hft htext
        hlang hL hfull]
    exact ⟨rfl, rfl⟩
  · intro hfull hT
    rw [process_audio_success g stt llm tts jl fid ft lang hexn hft htext
        hlang hL hfull hT]
    simp only [listeningEvents, List.cons_append, List.filter_append,
      List.filter_cons, filter_isLlmText_transcripts, filter_isLlmText_chunks,
      isLlmText_mkSignalEvent, isLlmText_mkLlmTextEvent]
    simp

/-- A callback that returns successfully. -/
def fOK : ActionCallback := fun _ _ => ExecResult.ok ("res".data)

/-- A concrete tool call with a string argument payload. -/
def tcW : ToolCall :=
  { name := some ("enam".data), arguments := some (ArgsVal.strVal ("xyz".data)),
    id := "c1" }

/-- The tool-call-only LLM delta. -/
def d1W : LLMResult :=
  { text_delta := [], tool_call := some tcW, finish_reason := "tool_calls" }

/-- The text-only final LLM delta. -/
def d2W : LLMResult := { text_delta := "ok2".data, is_final := true }

/-- An LLM backend emitting the tool call then the text. -/
def llmTool : List Msg → StreamRes LLMResult := fun _ =>
  { items := [d1W, d2W] }

/-- A gateway with the successful callback registered. -/
def gCB : VaniGatewayStub := mkGateway cfgW sysW (some fOK) 6 "t1"

/-- Witness for C4 at the two-element tool-call stream. -/
theorem c4_spec_witness :
    (llmOut gCB jlW llmTool ftW).1 = historyAfterUser gCB ftW
      ++ [{ role := "tool", content := execute_action (some fOK) jlW tcW,
            tool_call_id := some tcW.id }] ∧
    (llmOut gCB jlW llmTool ftW).2 = textConcat [] ++ textConcat [d2W] ∧
    (process_audio gCB sttW llmTool ttsW jlW "t2").events.filter isLlmText =
      [mkLlmTextEvent (llmOut gCB jlW llmTool ftW).2] := by
  have h := c4_spec gCB sttW llmTool ttsW jlW "t2" ftW "hi-IN" fOK tcW
    [] [d2W] d1W rfl rfl (by decide) rfl rfl rfl (by simp)
    (by
      intro d hd
      rw [List.mem_singleton.mp hd]
      rfl)
    rfl rfl rfl
  exact ⟨h.1, h.2.1, h.2.2.2 (by decide) rfl⟩

/-- Claim C8: for spans within bounds (code-point offsets), the enriched
user message is the transcript text, then the transliteration annotation
when present, then the code-switch annotation whose quoted substrings are
exactly the code-point slices of the final transcript text; this enriched
string is the user entry that `process_audio` puts into history. -/
theorem c8_spec (g : VaniGatewayStub) (stt llm tts jl fid)
    (ft : TranscriptResult)
    (hm : 1 ≤ g.max_history_turns)
    (hexn : stt.exn = none)
    (hft : (stt.items.filter (·.is_final)).getLast? = some ft)
    (htext : pyStripEmpty ft.text = false)
    (hspans : ∀ sp ∈ ft.code_switch_spans,
      sp.start_char < sp.end_char ∧ sp.end_char ≤ ft.text.length) :
    buildUserContent ft =
      (ft.text ++ (if ft.text_roman.isEmpty then []
        else ("\n[Transliteration: ").data ++ ft.text_roman ++ ("]").data))
      ++ (if ft.code_switch_spans.isEmpty then []
        else ("\n[Code-switch: ").data
          ++ List.intercalate (", ".data) (ft.code_switch_spans.map fun sp =>
               squote :: pySlice ft.text sp.start_char sp.end_char
                 ++ (squote :: " (".data) ++ sp.language_bcp47.data
                 ++ (")").data)
          ++ ("]").data) ∧
    userMsg ft ∈ (process_audio g stt llm tts jl fid).g.history := by
  constructor
  · unfold buildUserContent
    dsimp only
    have huc : (if ft.text_roman.isEmpty = true then ft.text
        else ft.text ++ ("\n[Transliteration: ").data ++ ft.text_roman
          ++ ("]").data)
        = ft.text ++ (if ft.text_roman.isEmpty = true then []
            else ("\n[Transliteration: ").data ++ ft.text_roman
              ++ ("]").data) := by
      by_cases hr : ft.text_roman.isEmpty <;> simp [hr]
    rw [huc]
    by_cases hcs : ft.code_switch_spans.isEmpty
    · simp [hcs]
    · rw [if_neg hcs, if_neg hcs]
      have hsi : switchInfo
          (ft.text ++ (if ft.text_roman.isEmpty = true then []
            else ("\n[Transliteration: ").data ++ ft.text_roman
              ++ ("]").data))
          ft.code_switch_spans
          = List.intercalate (", ".data) (ft.code_switch_spans.map fun sp =>
              squote :: pySlice ft.text sp.start_char sp.end_char
                ++ (squote :: " (".data) ++ sp.language_bcp47.data
                ++ (")").data) := by
        unfold switchInfo
        exact congrArg _ (List.map_congr_left (fun sp hsp => by
          rw [pySlice_append_left _ _ _ _ (hspans sp hsp).2]))
      rw [hsi]
      simp [List.append_assoc]
  · have hu : userMsg ft ∈ historyAfterUser g ft := by
      unfold historyAfterUser
      exact trimHistory_snoc_mem _ _ _ hm
    obtain ⟨suf, hsuf⟩ := llmLoop_hist_extends g.action_callback jl
      (llm (historyAfterUser g ft)).items (historyAfterUser g ft) []
    have hmem1 : userMsg ft ∈ (llmOut g jl llm ft).1 := by
      unfold llmOut
      rw [hsuf]
      exact List.mem_append_left _ hu
    rcases hresp : respLang ft (g.config.language_hints.map (·.bcp47_code))
      with _ | lang
    · rw [process_audio_indexError g stt llm tts jl fid ft hexn hft htext hresp]
      exact hu
    · rcases hL : (llm (historyAfterUser g ft)).exn with _ | m
      · by_cases hfull : pyStripEmpty (llmOut g jl llm ft).2 = true
        · rw [process_audio_emptyReply g stt llm tts jl fid ft lang hexn hft
              htext hresp hL hfull]
          exact hmem1
        · have hfull2 : pyStripEmpty (llmOut g jl llm ft).2 = false := by
            revert hfull
            cases pyStripEmpty (llmOut g jl llm ft).2 <;> simp
          rcases hT : (tts (llmOut g jl llm ft).2).exn with _ | m
          · rw [process_audio_success g stt llm tts jl fid ft lang hexn hft
                htext hresp hL hfull2 hT]
            exact List.mem_append_left _ hmem1
          · rw [process_audio_ttsExn g stt llm tts jl fid ft lang m hexn hft
                htext hresp hL hfull2 hT]
            exact List.mem_append_left _ hmem1
      · rw [process_audio_llmExn g stt llm tts jl fid ft lang m hexn hft
            htext hresp hL]
        exact hmem1

/-- The Hinglish code-switch transcript of the spec example. -/
def ftCS : TranscriptResult :=
  { text := "मुझे ये laptop बहुत पसंद है".data, is_final := true,
    language_bcp47 := "hi-IN",
    code_switch_spans := [{ start_char := 8, end_char := 14,
                            language_bcp47 := "en", confidence := 94/100 }] }

/-- An STT stream yielding the code-switch transcript. -/
def sttCS : StreamRes TranscriptResult := { items := [ftCS] }

/-- Witness for C8 at the spec's Hinglish example: the sliced span is
exactly `laptop` and the enriched message lands in history. -/
theorem c8_spec_witness :
    buildUserContent ftCS =
      (ftCS.text ++ (if ftCS.text_roman.isEmpty then []
        else ("\n[Transliteration: ").data ++ ftCS.text_roman ++ ("]").data))
      ++ (if ftCS.code_switch_spans.isEmpty then []
        else ("\n[Code-switch: ").data
          ++ List.intercalate (", ".data) (ftCS.code_switch_spans.map fun sp =>
               squote :: pySlice ftCS.text sp.start_char sp.end_char
                 ++ (squote :: " (".data) ++ sp.language_bcp47.data
                 ++ (")").data)
          ++ ("]").data) ∧
    userMsg ftCS ∈ (process_audio gW sttCS llmW ttsW jlW "t2").g.history ∧
    pySlice ftCS.text 8 14 = "laptop".data := by
  have h := c8_spec gW sttCS llmW ttsW jlW "t2" ftCS (by decide) rfl rfl
    (by decide)
    (by
      intro sp hsp
      rw [List.mem_singleton.mp hsp]
      exact ⟨by decide, by decide⟩)
  exact ⟨h.1, h.2, by decide⟩

/-- Claim C9: an exception raised by the action callback is caught and
converted to a JSON error payload appended to history as the tool result
— it never escapes `process_audio` and the turn continues; and a
tool-argument payload that fails to decode as JSON yields the empty
argument set instead of aborting. -/
theorem c9_spec (g : VaniGatewayStub) (stt llm tts jl fid)
    (ft : TranscriptResult) (lang : String) (f : ActionCallback)
    (tc : ToolCall) (d1 : LLMResult) (m : Str)
    (hexn : stt.exn = none)
    (hft : (stt.items.filter (·.is_final)).getLast? = some ft)
    (htext : pyStripEmpty ft.text = false)
    (hlang : respLang ft (g.config.language_hints.map (·.bcp47_code)) = some lang)
    (hcb : g.action_callback = some f)
    (hitems : (llm (historyAfterUser g ft)).items = [d1])
    (hd1 : d1.tool_call = some tc)
    (hraise : f (toolNameOf tc) (argsOf jl tc) = ExecResult.raised m)
    (hL : (llm (historyAfterUser g ft)).exn = none) :
    execute_action (some f) jl tc = jsonDumpsError m ∧
    (process_audio g stt llm tts jl fid).raised = none ∧
    { role := "tool", content := jsonDumpsError m, tool_call_id := some tc.id }
      ∈ (process_audio g stt llm tts jl fid).g.history ∧
    (∀ sArgs, argsRawOf tc = ArgsVal.strVal sArgs → jl sArgs = none →
      argsOf jl tc = []) := by
  have hexec : execute_action (some f) jl tc = jsonDumpsError m := by
    unfold execute_action
    dsimp only
    rw [hraise]
  have hloop : llmOut g jl llm ft =
      (historyAfterUser g ft
        ++ [{ role := "tool", content := jsonDumpsError m,
              tool_call_id := some tc.id }], []) := by
    unfold llmOut
    rw [hcb, hitems]
    simp [llmLoop, hd1, hexec]
  have hfull : pyStripEmpty (llmOut g jl llm ft).2 = true := by
    rw [hloop]
    rfl
  refine ⟨hexec, ?_, ?_, ?_⟩
  · rw [process_audio_emptyReply g stt llm tts jl fid ft lang hexn hft htext
        hlang hL hfull]
  · rw [process_audio_emptyReply g stt llm tts jl fid ft lang hexn hft htext
        hlang hL hfull]
    show _ ∈ (llmOut g jl llm ft).1
    rw [hloop]
    simp
  · intro sArgs hs hn
    unfold argsOf
    rw [hs]
    dsimp only
    rw [hn]
    rfl

/-- A callback that always raises. -/
def fRaise : ActionCallback := fun _ _ => ExecResult.raised ("bad".data)

/-- A gateway with the raising callback registered. -/
def gRaise : VaniGatewayStub := mkGateway cfgW sysW (some fRaise) 6 "t1"

/-- An LLM backend emitting only the tool call. -/
def llmToolOnly : List Msg → StreamRes LLMResult := fun _ => { items := [d1W] }

/-- Witness for C9: the raising callback, plus the undecodable argument
payload of `tcW`, at a concrete turn. -/
theorem c9_spec_witness :
    execute_action (some fRaise) jlW tcW = jsonDumpsError ("bad".data) ∧
    (process_audio gRaise sttW llmToolOnly ttsW jlW "t2").raised = none ∧
    { role := "tool", content := jsonDumpsError ("bad".data),
      tool_call_id := some tcW.id }
      ∈ (process_audio gRaise sttW llmToolOnly ttsW jlW "t2").g.history ∧
    argsOf jlW tcW = [] := by
  have h := c9_spec gRaise sttW llmToolOnly ttsW jlW "t2" ftW "hi-IN" fRaise
    tcW d1W ("bad".data) rfl rfl (by decide) rfl rfl rfl rfl rfl rfl
  exact ⟨h.1, h.2.1, h.2.2.1, h.2.2.2 ("xyz".data) rfl rfl⟩

end Vani
